import Mathlib

/-!
Verification of the SnapScore peer-session and state-synchronization layer.

The definitions below are a shallow embedding of the TypeScript source:
- `src/types.ts` (data model: `Round`, `Player`, `CardSettings`, `AppView`,
  `GameState`, `P2PMessage`),
- `src/hooks/useGameState.ts` (`updatePlayerRound`, `resetRounds`),
- `src/App.tsx` (`handleSaveRound` host branch, `handleP2PMessage`,
  `handleResetGame`, `broadcastState`),
- `src/hooks/useMultiplayer.ts` (`MAX_RETRIES`, the auto-reconnect effect,
  `handleJoinGame`, `sendToHostAction`, the host broadcast effect),
- `src/services/p2pService.ts` (`P2PService.setupConnection` and the
  per-connection close handler, i.e. the connection registry).

React `useState` setters are modelled by explicit state passing: a handler
becomes a pure function from the current state (and, for connection
attempts, the transport outcome) to the next state.
-/

namespace SnapScore

/-- Embeds `AppView` from `src/types.ts`. -/
inductive AppView where
  | SETUP
  | GAME
  | SETTINGS
  | SCAN
deriving DecidableEq, Repr

/-- Embeds `DetectedCard` from `src/types.ts`. -/
structure DetectedCard where
  rank : String
  suit : String
  id : String
deriving DecidableEq, Repr

/-- Embeds the discriminated union `Round` from `src/types.ts`:
`{ type: 'manual'; id; score; timestamp } | { type: 'scan'; id; cards; timestamp }`. -/
inductive Round where
  | manual (id : String) (score : Int) (timestamp : Nat)
  | scan (id : String) (cards : List DetectedCard) (timestamp : Nat)
deriving DecidableEq, Repr

/-- The `id` field shared by both variants of `Round`. -/
def Round.id : Round → String
  | .manual i _ _ => i
  | .scan i _ _ => i

/-- Embeds `Player` from `src/types.ts`. -/
structure Player where
  id : String
  name : String
  rounds : List Round
deriving DecidableEq, Repr

/-- Embeds `CardSettings` from `src/types.ts`; the string-literal unions
`'face' | 'fixed'` and the `winningScoreType` union are kept as strings. -/
structure CardSettings where
  jokerValue : Int
  aceValue : Int
  faceCardBehavior : String
  fixedFaceValue : Option Int
  numberCardBehavior : String
  fixedNumberValue : Option Int
  winningScoreType : String
deriving DecidableEq, Repr

/-- Embeds `DEFAULT_SETTINGS` from `src/hooks/useGameState.ts` (also duplicated
at the top of `src/App.tsx`). -/
def DEFAULT_SETTINGS : CardSettings :=
  { jokerValue := 50
    aceValue := 20
    faceCardBehavior := "fixed"
    fixedFaceValue := some 10
    numberCardBehavior := "face"
    fixedNumberValue := some 5
    winningScoreType := "lowest" }

/-- Embeds the replicated `GameState` payload from `src/types.ts`:
`{ players; settings; view }` (the Game State Snapshot of the spec). -/
structure GameState where
  players : List Player
  settings : CardSettings
  view : AppView
deriving DecidableEq, Repr

/-- Embeds the `P2PMessage` union from `src/types.ts` plus the `HEARTBEAT` and
`GAME_ENDED` kinds used by `p2pService.ts`/`useMultiplayer.ts`. -/
inductive P2PMessage where
  | SYNC_STATE (payload : GameState)
  | REQUEST_SAVE_ROUND (playerId : String) (round : Round)
  | REQUEST_RESET
  | REQUEST_SETTINGS_UPDATE (settings : CardSettings)
  | REQUEST_ADD_PLAYERS (players : List Player)
  | GAME_ENDED
  | HEARTBEAT (timestamp : Nat)
deriving DecidableEq, Repr

/-- Embeds the round upsert at the heart of `updatePlayerRound`
(`src/hooks/useGameState.ts` lines 87-95) and of the host branch of
`handleSaveRound` (`src/App.tsx` lines 312-320): look up
`findIndex(r => r.id === round.id)`; on a hit overwrite that slot, otherwise
append the round at the end. -/
def upsertRound (rounds : List Round) (round : Round) : List Round :=
  match rounds.findIdx? (fun r => r.id == round.id) with
  | some existingRoundIndex => rounds.set existingRoundIndex round
  | none => rounds ++ [round]

/-- Embeds `updatePlayerRound` from `src/hooks/useGameState.ts` lines 84-101:
map over the players, rewriting only the player whose `id` matches. -/
def updatePlayerRound (players : List Player) (playerId : String) (round : Round) :
    List Player :=
  players.map fun p =>
    if p.id == playerId then { p with rounds := upsertRound p.rounds round } else p

/-- The host branch of `handleSaveRound` (`src/App.tsx` lines 300-329) at the
Game State Snapshot level; its `setPlayers` body is the identical upsert map
as `updatePlayerRound`, and it touches neither `settings` nor `view`. -/
def handleSaveRound (gs : GameState) (playerId : String) (round : Round) : GameState :=
  { gs with players := updatePlayerRound gs.players playerId round }

end SnapScore

namespace SnapScore

theorem upsertRound_nil (r : Round) : upsertRound [] r = [r] := rfl

theorem upsertRound_cons (a : Round) (l : List Round) (r : Round) :
    upsertRound (a :: l) r =
      if a.id == r.id then r :: l else a :: upsertRound l r := by
  unfold upsertRound
  rw [List.findIdx?_cons]
  by_cases h : a.id == r.id
  · simp [h]
  · simp only [h, if_neg, Bool.false_eq_true, if_false]
    cases hfind : List.findIdx? (fun x => x.id == r.id) l with
    | none => simp [hfind]
    | some i => simp [hfind]

theorem upsertRound_idem (l : List Round) (r : Round) :
    upsertRound (upsertRound l r) r = upsertRound l r := by
  induction l with
  | nil => simp [upsertRound_nil, upsertRound_cons]
  | cons a l ih =>
    rw [upsertRound_cons]
    by_cases h : a.id == r.id
    · rw [if_pos h, upsertRound_cons, if_pos (by simp)]
    · rw [if_neg h, upsertRound_cons, if_neg h, ih]

theorem upsertRound_last_wins (l : List Round) (r1 r2 : Round) (h : r1.id = r2.id) :
    upsertRound (upsertRound l r1) r2 = upsertRound l r2 := by
  induction l with
  | nil => simp [upsertRound_nil, upsertRound_cons, h]
  | cons a l ih =>
    rw [upsertRound_cons, upsertRound_cons]
    by_cases ha : a.id == r1.id
    · have ha2 : a.id == r2.id := by
        simpa [h] using ha
      rw [if_pos ha, if_pos ha2, upsertRound_cons, if_pos (by simp [h])]
    · have ha2 : ¬ (a.id == r2.id) := by
        simpa [h] using ha
      rw [if_neg ha, if_neg ha2, upsertRound_cons, if_neg ha2, ih]

theorem upsertRound_comm_perm (l : List Round) (r1 r2 : Round) (h : r1.id ≠ r2.id) :
    List.Perm (upsertRound (upsertRound l r1) r2) (upsertRound (upsertRound l r2) r1) := by
  induction l with
  | nil =>
    simp only [upsertRound_nil]
    rw [upsertRound_cons, upsertRound_cons, if_neg (by simpa using h),
      if_neg (by simpa using fun e => h e.symm)]
    simp only [upsertRound_nil]
    exact List.Perm.swap r2 r1 []
  | cons a l ih =>
    rw [upsertRound_cons, upsertRound_cons]
    by_cases h1 : a.id == r1.id
    · have h2 : ¬ (a.id == r2.id) := by
        have e1 : a.id = r1.id := by simpa using h1
        simpa [e1] using h
      rw [if_pos h1, if_neg h2, upsertRound_cons, if_neg (by simpa using h),
        upsertRound_cons, if_pos h1]
    · by_cases h2 : a.id == r2.id
      · rw [if_neg h1, if_pos h2, upsertRound_cons, if_pos h2, upsertRound_cons,
          if_neg (by simpa using fun e => h e.symm)]
      · rw [if_neg h1, if_neg h2, upsertRound_cons, if_neg h2, upsertRound_cons, if_neg h1]
        exact List.Perm.cons a ih

theorem upsertRound_of_all_ne (l : List Round) (r : Round)
    (h : ∀ x ∈ l, x.id ≠ r.id) : upsertRound l r = l ++ [r] := by
  induction l with
  | nil => rfl
  | cons a l ih =>
    rw [upsertRound_cons, if_neg (by simpa using h a (by simp)),
      ih (fun x hx => h x (by simp [hx])), List.cons_append]

/-- Pointwise description of a double `map` against a single `map` over the
same list, used to compare two orders of applying per-player updates. -/
theorem forall₂_map_map {α β γ : Type} (l : List α) (f : α → β) (g : α → γ)
    (R : β → γ → Prop) (h : ∀ a ∈ l, R (f a) (g a)) :
    List.Forall₂ R (l.map f) (l.map g) := by
  induction l with
  | nil => simp
  | cons a l ih =>
    simp only [List.map_cons]
    exact List.Forall₂.cons (h a (by simp)) (ih fun x hx => h x (by simp [hx]))

/-- Pointwise description of a single `map` against the original list. -/
theorem forall₂_self_map {α β : Type} (l : List α) (f : α → β)
    (R : α → β → Prop) (h : ∀ a ∈ l, R a (f a)) :
    List.Forall₂ R l (l.map f) := by
  induction l with
  | nil => simp
  | cons a l ih =>
    simp only [List.map_cons]
    exact List.Forall₂.cons (h a (by simp)) (ih fun x hx => h x (by simp [hx]))

theorem updatePlayerRound_twice (players : List Player) (playerId : String)
    (r1 r2 : Round) :
    updatePlayerRound (updatePlayerRound players playerId r1) playerId r2 =
      players.map fun p =>
        if p.id == playerId then
          { p with rounds := upsertRound (upsertRound p.rounds r1) r2 } else p := by
  unfold updatePlayerRound
  rw [List.map_map]
  refine List.map_congr_left fun p _ => ?_
  by_cases h : p.id == playerId <;> simp [Function.comp, h]

theorem updatePlayerRound_no_match (players : List Player) (playerId : String)
    (round : Round) (h : ∀ p ∈ players, p.id ≠ playerId) :
    updatePlayerRound players playerId round = players := by
  unfold updatePlayerRound
  conv_rhs => rw [← List.map_id players]
  refine List.map_congr_left fun p hp => ?_
  rw [if_neg (by simpa using h p hp)]
  rfl

/-- Sample host roster used by concrete witnesses below. -/
def sampleState : GameState :=
  { players := [{ id := "p1", name := "Ann", rounds := [] },
                { id := "p2", name := "Bob", rounds := [] }]
    settings := DEFAULT_SETTINGS
    view := AppView.GAME }

/-- C1: applying the SAVE_ROUND upsert handler twice with the identical message
(same playerId, same round) yields the same Game State Snapshot as applying it
once; the handler updates an existing round id in place and appends a novel
one, so the replay finds the round it just wrote and rewrites it unchanged. -/
theorem saveRound_idempotent (gs : GameState) (playerId : String) (round : Round) :
    handleSaveRound (handleSaveRound gs playerId round) playerId round =
      handleSaveRound gs playerId round := by
  unfold handleSaveRound
  congr 1
  rw [updatePlayerRound_twice]
  unfold updatePlayerRound
  refine List.map_congr_left fun p _ => ?_
  by_cases h : p.id == playerId <;> simp [h, upsertRound_idem]

/-- C4 counterexample: on a host whose player `p1` has no rounds, saving two
rounds with the distinct ids `a` and `b` in the two possible orders yields two
different Game State Snapshots (`[a-round, b-round]` versus
`[b-round, a-round]`), so the two SAVE_ROUND requests are not commutative on
the nose as the claim states. -/
theorem saveRound_not_commutative :
    (Round.manual "a" 10 0).id ≠ (Round.manual "b" 20 0).id ∧
    handleSaveRound (handleSaveRound sampleState "p1" (Round.manual "a" 10 0)) "p1"
        (Round.manual "b" 20 0) ≠
      handleSaveRound (handleSaveRound sampleState "p1" (Round.manual "b" 20 0)) "p1"
        (Round.manual "a" 10 0) := by
  refine ⟨by decide, by decide⟩

/-- C4 (amended): two SAVE_ROUND requests for the same player with distinct
round ids commute up to a permutation of that player's rounds list (settings,
view, player ids and names agree exactly); two requests with the same round id
resolve to last-applied-wins: applying the first and then the second is the
same as applying the second alone. -/
theorem saveRound_reorder (gs : GameState) (playerId : String) (r1 r2 : Round) :
    (r1.id ≠ r2.id →
      (handleSaveRound (handleSaveRound gs playerId r1) playerId r2).settings =
        (handleSaveRound (handleSaveRound gs playerId r2) playerId r1).settings ∧
      (handleSaveRound (handleSaveRound gs playerId r1) playerId r2).view =
        (handleSaveRound (handleSaveRound gs playerId r2) playerId r1).view ∧
      List.Forall₂ (fun p q => p.id = q.id ∧ p.name = q.name ∧ List.Perm p.rounds q.rounds)
        (handleSaveRound (handleSaveRound gs playerId r1) playerId r2).players
        (handleSaveRound (handleSaveRound gs playerId r2) playerId r1).players) ∧
    (r1.id = r2.id →
      handleSaveRound (handleSaveRound gs playerId r1) playerId r2 =
        handleSaveRound gs playerId r2) := by
  constructor
  · intro hne
    refine ⟨rfl, rfl, ?_⟩
    show List.Forall₂ _
      (updatePlayerRound (updatePlayerRound gs.players playerId r1) playerId r2)
      (updatePlayerRound (updatePlayerRound gs.players playerId r2) playerId r1)
    rw [updatePlayerRound_twice, updatePlayerRound_twice]
    refine forall₂_map_map _ _ _ _ fun p _ => ?_
    by_cases h : p.id == playerId
    · rw [if_pos h, if_pos h]
      exact ⟨rfl, rfl, upsertRound_comm_perm _ _ _ hne⟩
    · rw [if_neg h, if_neg h]
      exact ⟨rfl, rfl, List.Perm.refl _⟩
  · intro heq
    unfold handleSaveRound
    congr 1
    rw [updatePlayerRound_twice]
    unfold updatePlayerRound
    refine List.map_congr_left fun p _ => ?_
    by_cases h : p.id == playerId <;> simp [h, upsertRound_last_wins _ _ _ heq]

/-- C4 witness: concrete instances of both halves of `saveRound_reorder`; the
last-applied-wins half reproduces Scenario B of the spec (scores 10 then 20
under one round id leave `p1` with exactly one round of score 20). -/
theorem saveRound_reorder_witness :
    ((handleSaveRound (handleSaveRound sampleState "p1" (Round.manual "a" 10 0)) "p1"
        (Round.manual "b" 20 1)).settings =
      (handleSaveRound (handleSaveRound sampleState "p1" (Round.manual "b" 20 1)) "p1"
        (Round.manual "a" 10 0)).settings ∧
     (handleSaveRound (handleSaveRound sampleState "p1" (Round.manual "a" 10 0)) "p1"
        (Round.manual "b" 20 1)).view =
      (handleSaveRound (handleSaveRound sampleState "p1" (Round.manual "b" 20 1)) "p1"
        (Round.manual "a" 10 0)).view ∧
     List.Forall₂ (fun p q => p.id = q.id ∧ p.name = q.name ∧ List.Perm p.rounds q.rounds)
       (handleSaveRound (handleSaveRound sampleState "p1" (Round.manual "a" 10 0)) "p1"
          (Round.manual "b" 20 1)).players
       (handleSaveRound (handleSaveRound sampleState "p1" (Round.manual "b" 20 1)) "p1"
          (Round.manual "a" 10 0)).players) ∧
    (handleSaveRound (handleSaveRound sampleState "p1" (Round.manual "r" 10 0)) "p1"
        (Round.manual "r" 20 1) =
      handleSaveRound sampleState "p1" (Round.manual "r" 20 1) ∧
     (handleSaveRound sampleState "p1" (Round.manual "r" 20 1)).players.head?.map
        Player.rounds = some [Round.manual "r" 20 1]) :=
  ⟨(saveRound_reorder sampleState "p1" (Round.manual "a" 10 0)
      (Round.manual "b" 20 1)).1 (by decide),
   (saveRound_reorder sampleState "p1" (Round.manual "r" 10 0)
      (Round.manual "r" 20 1)).2 rfl, by decide⟩

/-- C9: a SAVE_ROUND whose playerId matches no player in the current roster is
a no-op: the Game State Snapshot is returned unchanged (the handler is a total
function, so no error is raised). -/
theorem saveRound_unknown_player (gs : GameState) (playerId : String) (round : Round)
    (h : ∀ p ∈ gs.players, p.id ≠ playerId) :
    handleSaveRound gs playerId round = gs := by
  unfold handleSaveRound
  rw [updatePlayerRound_no_match _ _ _ h]

/-- C9 witness: saving a round for the absent player id `zz` leaves the sample
snapshot untouched. -/
theorem saveRound_unknown_player_witness :
    handleSaveRound sampleState "zz" (Round.manual "a" 10 0) = sampleState :=
  saveRound_unknown_player sampleState "zz" (Round.manual "a" 10 0) (by decide)

/-- C10: the SAVE_ROUND upsert handler leaves settings and the current view
unchanged, and relates the old and new rosters pointwise: every player whose
id differs from the named playerId is exactly unchanged, and even the named
player keeps their id and name (only their rounds may differ). -/
theorem saveRound_frame (gs : GameState) (playerId : String) (round : Round) :
    (handleSaveRound gs playerId round).settings = gs.settings ∧
    (handleSaveRound gs playerId round).view = gs.view ∧
    List.Forall₂ (fun p q => (p.id ≠ playerId → q = p) ∧ q.id = p.id ∧ q.name = p.name)
      gs.players (handleSaveRound gs playerId round).players := by
  refine ⟨rfl, rfl, ?_⟩
  show List.Forall₂ _ gs.players (updatePlayerRound gs.players playerId round)
  unfold updatePlayerRound
  refine forall₂_self_map _ _ _ fun p _ => ?_
  by_cases h : p.id == playerId
  · refine ⟨fun hne => absurd (by simpa using h) hne, ?_, ?_⟩ <;> simp [h]
  · simp [h]

/-- Embeds the `SYNC_STATE` branch of `handleP2PMessage` (`src/App.tsx` lines
166-172): the receiver replaces `players` and `settings` with the payload,
sets `isClient` to `true` (the returned Bool), and adopts the payload's view
only when that view is `GAME` or `SETUP`. -/
def applySyncState (gs : GameState) (payload : GameState) : GameState × Bool :=
  ({ players := payload.players
     settings := payload.settings
     view :=
       if payload.view = AppView.GAME ∨ payload.view = AppView.SETUP then payload.view
       else gs.view },
   true)

/-- Embeds the host broadcast payload: both `broadcastState` (`src/App.tsx`
lines 154-163) and the broadcast effect of `src/hooks/useMultiplayer.ts`
lines 133-144 send the current snapshot with the transient `SCAN` view
replaced by `GAME`. -/
def broadcastPayload (gs : GameState) : GameState :=
  { gs with view := if gs.view = AppView.SCAN then AppView.GAME else gs.view }

/-- Embeds the host branch of `handleResetGame` (`src/App.tsx` lines 331-350)
at the snapshot level: `setPlayers([])` and `setView(AppView.SETUP)`; the
settings are untouched, and the peer teardown / fresh-identity side effects
live outside the snapshot. -/
def handleResetGame (gs : GameState) : GameState :=
  { gs with players := [], view := AppView.SETUP }

/-- Embeds `resetRounds` from `src/hooks/useGameState.ts` lines 111-125: every
player keeps id and name and loses all rounds (the last-game history write to
local storage is a side effect outside the snapshot). -/
def resetRounds (players : List Player) : List Player :=
  players.map fun p => { p with rounds := [] }

/-- Embeds the request branches of the host message router `handleP2PMessage`
(`src/App.tsx` lines 173-181); the `SYNC_STATE` branch is `applySyncState`
above, and unknown kinds fall through with no effect. -/
def hostHandleMessage (gs : GameState) (msg : P2PMessage) : GameState :=
  match msg with
  | .REQUEST_SAVE_ROUND playerId round => handleSaveRound gs playerId round
  | .REQUEST_RESET => handleResetGame gs
  | .REQUEST_SETTINGS_UPDATE s => { gs with settings := s }
  | .REQUEST_ADD_PLAYERS ps => { gs with players := gs.players ++ ps }
  | _ => gs

/-- C5 counterexample: a `SYNC_STATE` payload whose view is `SETTINGS` (which
is not the transient scanning view) is not adopted by the receiver, so the
receiver does not replace its snapshot wholesale with the payload as the
claim states: the local `GAME` view survives. -/
theorem syncState_view_not_adopted :
    AppView.SETTINGS ≠ AppView.SCAN ∧
    (applySyncState sampleState { sampleState with view := AppView.SETTINGS }).1.view =
      AppView.GAME ∧
    (applySyncState sampleState { sampleState with view := AppView.SETTINGS }).1.view ≠
      AppView.SETTINGS := by
  refine ⟨by decide, by decide, by decide⟩

/-- C5 (amended): on `SYNC_STATE` the receiver replaces `players` and
`settings` wholesale with the payload and forces its role to CLIENT, but it
adopts the sender's view only when that view is `GAME` or `SETUP`; a
`SETTINGS` or `SCAN` payload view leaves the local view unchanged. The host
substitutes `GAME` for the transient `SCAN` view before broadcasting, so the
scanning view is never propagated to others. -/
theorem syncState_replaces_and_forces_client (gs payload : GameState) :
    (applySyncState gs payload).1.players = payload.players ∧
    (applySyncState gs payload).1.settings = payload.settings ∧
    (applySyncState gs payload).2 = true ∧
    (payload.view = AppView.GAME → (applySyncState gs payload).1.view = AppView.GAME) ∧
    (payload.view = AppView.SETUP → (applySyncState gs payload).1.view = AppView.SETUP) ∧
    (payload.view = AppView.SETTINGS → (applySyncState gs payload).1.view = gs.view) ∧
    (payload.view = AppView.SCAN → (applySyncState gs payload).1.view = gs.view) ∧
    (broadcastPayload gs).view ≠ AppView.SCAN := by
  refine ⟨rfl, rfl, rfl, ?_, ?_, ?_, ?_, ?_⟩
  · intro h; simp [applySyncState, h]
  · intro h; simp [applySyncState, h]
  · intro h; simp [applySyncState, h]
  · intro h; simp [applySyncState, h]
  · cases hv : gs.view <;> simp [broadcastPayload, hv]

/-- C5 witness: concrete instances of the conditional view clauses of
`syncState_replaces_and_forces_client`. -/
theorem syncState_replaces_witness :
    (applySyncState sampleState { sampleState with view := AppView.SETTINGS }).1.view =
      sampleState.view ∧
    (applySyncState sampleState { sampleState with view := AppView.SETUP }).1.view =
      AppView.SETUP :=
  ⟨(syncState_replaces_and_forces_client sampleState
      { sampleState with view := AppView.SETTINGS }).2.2.2.2.2.1 rfl,
   (syncState_replaces_and_forces_client sampleState
      { sampleState with view := AppView.SETUP }).2.2.2.2.1 rfl⟩

/-- Host snapshot with one recorded round, used to exercise the reset path. -/
def sampleStateWithRound : GameState :=
  { players := [{ id := "p1", name := "Ann", rounds := [Round.manual "r1" 10 0] }]
    settings := DEFAULT_SETTINGS
    view := AppView.GAME }

/-- C6 counterexample: routing a `REQUEST_RESET` through the host message
router empties the entire player list, it does not keep the players with
cleared rounds as the claim states (that behavior is the separate
`resetRounds` store operation). -/
theorem requestReset_drops_players :
    (hostHandleMessage sampleStateWithRound P2PMessage.REQUEST_RESET).players = [] ∧
    resetRounds sampleStateWithRound.players =
      [{ id := "p1", name := "Ann", rounds := [] }] ∧
    (hostHandleMessage sampleStateWithRound P2PMessage.REQUEST_RESET).players ≠
      resetRounds sampleStateWithRound.players := by
  refine ⟨by decide, by decide, by decide⟩

/-- C6 (amended): handling `REQUEST_RESET` through the message router in the
source clears the entire player list, keeps the settings, and returns the
host to the `SETUP` view (it also tears down the peer session, so no
re-broadcast reaches the old connections); the game-state store's
`resetRounds` operation is the one that clears all players' rounds while
keeping every player's id and name and the settings. -/
theorem requestReset_behaviour (gs : GameState) :
    (hostHandleMessage gs P2PMessage.REQUEST_RESET).players = [] ∧
    (hostHandleMessage gs P2PMessage.REQUEST_RESET).settings = gs.settings ∧
    (hostHandleMessage gs P2PMessage.REQUEST_RESET).view = AppView.SETUP ∧
    List.Forall₂ (fun p q => q.id = p.id ∧ q.name = p.name ∧ q.rounds = [])
      gs.players (resetRounds gs.players) := by
  refine ⟨rfl, rfl, rfl, ?_⟩
  unfold resetRounds
  exact forall₂_self_map _ _ _ fun p _ => ⟨rfl, rfl, rfl⟩

/-- C10 witness: concrete instance of `saveRound_frame` at the sample snapshot. -/
theorem saveRound_frame_witness :
    (handleSaveRound sampleState "p1" (Round.manual "a" 10 0)).settings =
      sampleState.settings ∧
    (handleSaveRound sampleState "p1" (Round.manual "a" 10 0)).view = sampleState.view ∧
    List.Forall₂ (fun p q => (p.id ≠ "p1" → q = p) ∧ q.id = p.id ∧ q.name = p.name)
      sampleState.players
      (handleSaveRound sampleState "p1" (Round.manual "a" 10 0)).players :=
  saveRound_frame sampleState "p1" (Round.manual "a" 10 0)

/-- Embeds `MAX_RETRIES` from `src/hooks/useMultiplayer.ts` line 6. -/
def MAX_RETRIES : Nat := 5

/-- Outcome of one transport connection attempt (`p2p.connect`): success, the
explicit peer-unavailable rejection forwarded by `_connectToHost`'s
`onPeerError` handler (`src/services/p2pService.ts` lines 169-176; matched in
`handleJoinGame` by `e.type === 'peer-unavailable'`), or any other failure
(timeout, transient network error). -/
inductive JoinOutcome where
  | success
  | peerUnavailable
  | otherFailure
deriving DecidableEq, Repr

/-- State of `useMultiplayer` (`src/hooks/useMultiplayer.ts`): the `isClient`,
`isJoining`, `retryCount` and `hostEndedSession` pieces of React state, the
persisted `snapscore_host_id` key (`hostId`), and the transport's
`p2p.connectedPeerIds` list (whose length is `connectedPeers` /
`activeConnectionsCount`). -/
structure MPState where
  isClient : Bool
  isJoining : Bool
  retryCount : Nat
  hostEndedSession : Bool
  hostId : Option String
  connectedIds : List String
deriving DecidableEq, Repr

/-- Embeds `handleJoinGame` (`src/hooks/useMultiplayer.ts` lines 148-199) as a
state transformer parameterized by the outcome of `await p2p.connect`:
- already connected to the target (lines 149-155): stop joining, reset the
  retry counter, mark client;
- success (lines 164-172): mark client, clear `hostEndedSession`, persist the
  target as host id, reset the retry counter; the opened connection enters the
  connection list (`setupConnection` pushes it), so the target joins
  `connectedIds`;
- peer-unavailable failure (lines 177-184): drop the client role, clear the
  persisted host id, reset the retry counter (fail fast, no retry);
- any other failure (lines 186-192): a silent attempt increments the retry
  counter, a user-initiated attempt drops the client role and clears the
  persisted host id. -/
def handleJoinGame (s : MPState) (targetHostId : String) (silent : Bool)
    (out : JoinOutcome) : MPState :=
  if s.connectedIds.contains targetHostId then
    { s with isJoining := false, retryCount := 0, isClient := true }
  else
    match out with
    | .success =>
      { s with isClient := true, hostEndedSession := false,
               hostId := some targetHostId, retryCount := 0, isJoining := false,
               connectedIds := targetHostId :: s.connectedIds }
    | .peerUnavailable =>
      { s with isClient := false, hostId := none, retryCount := 0, isJoining := false }
    | .otherFailure =>
      if silent then { s with retryCount := s.retryCount + 1, isJoining := false }
      else { s with isClient := false, hostId := none, isJoining := false }

/-- Guard of the auto-reconnect effect (`src/hooks/useMultiplayer.ts` lines
110-130): a silent reconnection attempt fires only for a client whose session
was not ended by the host, with zero live connections, a remembered host id,
a retry count strictly below `MAX_RETRIES`, and no join already in flight. -/
def autoReconnectFires (s : MPState) : Bool :=
  s.isClient && !s.hostEndedSession && s.connectedIds.isEmpty &&
    s.hostId.isSome && decide (s.retryCount < MAX_RETRIES) && !s.isJoining

/-- One timer tick of the auto-reconnect effect: when the guard holds, the
hook calls `handleJoinGame(hostId, true)` and the attempt resolves with
`out`; otherwise nothing happens. -/
def autoReconnectStep (s : MPState) (out : JoinOutcome) : MPState :=
  if autoReconnectFires s then
    match s.hostId with
    | some hostId => handleJoinGame s hostId true out
    | none => s
  else s

/-- Run of the reconnection loop: a freshly disconnected client that remembers
host `h`, after `n` consecutive silently-failing timer ticks. -/
def reconnectRun (h : String) (n : Nat) : MPState :=
  (fun s => autoReconnectStep s JoinOutcome.otherFailure)^[n]
    { isClient := true, isJoining := false, retryCount := 0,
      hostEndedSession := false, hostId := some h, connectedIds := [] }

theorem reconnectRun_eq (h : String) :
    ∀ i, i ≤ MAX_RETRIES → reconnectRun h i =
      { isClient := true, isJoining := false, retryCount := i,
        hostEndedSession := false, hostId := some h, connectedIds := [] } := by
  intro i hi
  induction i with
  | zero => rfl
  | succ n ih =>
    have hn : n < MAX_RETRIES := Nat.lt_of_succ_le hi
    rw [reconnectRun, Function.iterate_succ_apply', ← reconnectRun,
      ih (Nat.le_of_lt hn)]
    simp [autoReconnectStep, autoReconnectFires, handleJoinGame, hn]

/-- C3: starting from a disconnected client with retry counter zero, each of
the first `MAX_RETRIES` (= 5) timer ticks attempts a silent reconnection;
after exactly 5 consecutive silent failures the counter reads 5, the
auto-reconnect guard is off, and every further automatic tick is a no-op
(only a user-initiated action can change the state); moreover any successful
connection attempt resets the retry counter to zero. -/
theorem retry_ceiling (h : String) :
    (∀ i, i < MAX_RETRIES → autoReconnectFires (reconnectRun h i) = true) ∧
    (reconnectRun h MAX_RETRIES).retryCount = MAX_RETRIES ∧
    autoReconnectFires (reconnectRun h MAX_RETRIES) = false ∧
    (∀ out, autoReconnectStep (reconnectRun h MAX_RETRIES) out = reconnectRun h MAX_RETRIES) ∧
    (∀ (s : MPState) (target : String) (silent : Bool),
      (handleJoinGame s target silent JoinOutcome.success).retryCount = 0) := by
  refine ⟨?_, ?_, ?_, ?_, ?_⟩
  · intro i hi
    rw [reconnectRun_eq h i (Nat.le_of_lt hi)]
    simp [autoReconnectFires, hi]
  · rw [reconnectRun_eq h MAX_RETRIES le_rfl]
  · rw [reconnectRun_eq h MAX_RETRIES le_rfl]
    simp [autoReconnectFires, MAX_RETRIES]
  · intro out
    rw [reconnectRun_eq h MAX_RETRIES le_rfl]
    simp [autoReconnectStep, autoReconnectFires, MAX_RETRIES]
  · intro s target silent
    by_cases hc : target ∈ s.connectedIds <;> simp [handleJoinGame, hc]

/-- Client state in mid-join with a nonzero retry counter, used as a concrete
input by witnesses below. -/
def sampleJoiningState : MPState :=
  { isClient := true, isJoining := true, retryCount := 3,
    hostEndedSession := false, hostId := some "H", connectedIds := [] }

/-- C3 witness: the run against host id `H`, with a concrete success reset. -/
theorem retry_ceiling_witness :
    autoReconnectFires (reconnectRun "H" 0) = true ∧
    (reconnectRun "H" MAX_RETRIES).retryCount = MAX_RETRIES ∧
    autoReconnectFires (reconnectRun "H" MAX_RETRIES) = false ∧
    autoReconnectStep (reconnectRun "H" MAX_RETRIES) JoinOutcome.otherFailure =
      reconnectRun "H" MAX_RETRIES ∧
    (handleJoinGame sampleJoiningState "H" true JoinOutcome.success).retryCount = 0 :=
  ⟨(retry_ceiling "H").1 0 (by decide), (retry_ceiling "H").2.1,
   (retry_ceiling "H").2.2.1, (retry_ceiling "H").2.2.2.1 JoinOutcome.otherFailure,
   (retry_ceiling "H").2.2.2.2 sampleJoiningState "H" true⟩

/-- C7: a join attempt (silent or user-initiated) that fails with the explicit
peer-unavailable signal and was not already connected terminates given-up:
client role dropped, persisted host id cleared, the retry counter not
incremented but reset to zero, no join in flight, and the auto-reconnect
guard permanently off — no retry budget is consumed. -/
theorem peerUnavailable_fail_fast (s : MPState) (target : String) (silent : Bool)
    (h : s.connectedIds.contains target = false) :
    (handleJoinGame s target silent JoinOutcome.peerUnavailable).retryCount = 0 ∧
    (handleJoinGame s target silent JoinOutcome.peerUnavailable).hostId = none ∧
    (handleJoinGame s target silent JoinOutcome.peerUnavailable).isClient = false ∧
    (handleJoinGame s target silent JoinOutcome.peerUnavailable).isJoining = false ∧
    autoReconnectFires (handleJoinGame s target silent JoinOutcome.peerUnavailable) =
      false := by
  have hm : target ∉ s.connectedIds := by simpa using h
  simp [handleJoinGame, hm, autoReconnectFires]

/-- C7 witness: the fail-fast path at a concrete joining state. -/
theorem peerUnavailable_fail_fast_witness :
    (handleJoinGame sampleJoiningState "H" false JoinOutcome.peerUnavailable).retryCount =
      0 ∧
    (handleJoinGame sampleJoiningState "H" false JoinOutcome.peerUnavailable).hostId =
      none ∧
    (handleJoinGame sampleJoiningState "H" false JoinOutcome.peerUnavailable).isClient =
      false ∧
    (handleJoinGame sampleJoiningState "H" false JoinOutcome.peerUnavailable).isJoining =
      false ∧
    autoReconnectFires
      (handleJoinGame sampleJoiningState "H" false JoinOutcome.peerUnavailable) = false :=
  peerUnavailable_fail_fast sampleJoiningState "H" false (by decide)

/-- Embeds `sendToHostAction` (`src/hooks/useMultiplayer.ts` lines 224-239):
with no persisted host id the action returns at once; when the host is among
the connected peers the message goes straight to `p2p.sendToHost`; otherwise
the action awaits exactly one silent `handleJoinGame` and sends only if the
host is connected afterwards, returning without queuing when it is not.
Result: the new state, the message handed to the transport (`none` when
dropped), and the number of reconnection attempts made. -/
def sendToHostAction (s : MPState) (msg : P2PMessage) (out : JoinOutcome) :
    MPState × Option P2PMessage × Nat :=
  match s.hostId with
  | none => (s, none, 0)
  | some hostId =>
    if s.connectedIds.contains hostId then (s, some msg, 0)
    else
      let s1 := handleJoinGame s hostId true out
      if s1.connectedIds.contains hostId then (s1, some msg, 1)
      else (s1, none, 1)

/-- C8: a client mutation request issued while the last-known host is not
connected triggers exactly one synchronous silent reconnection attempt; the
message is sent exactly when that attempt succeeds and is dropped (never
queued) when it fails — at-most-once delivery. -/
theorem send_at_most_once (s : MPState) (msg : P2PMessage) (h : String)
    (out : JoinOutcome) (hh : s.hostId = some h)
    (hc : s.connectedIds.contains h = false) :
    (sendToHostAction s msg out).2.2 = 1 ∧
    (out = JoinOutcome.success → (sendToHostAction s msg out).2.1 = some msg) ∧
    (out ≠ JoinOutcome.success → (sendToHostAction s msg out).2.1 = none) := by
  have hm : h ∉ s.connectedIds := by simpa using hc
  cases out <;> simp [sendToHostAction, hh, hm, handleJoinGame]

/-- Disconnected client state with persisted host `H`, used by the
at-most-once witness. -/
def sampleClientState : MPState :=
  { isClient := true, isJoining := false, retryCount := 0,
    hostEndedSession := false, hostId := some "H", connectedIds := [] }

/-- C8 witness: a successful reconnection sends the request, a failing one
drops it after the single attempt. -/
theorem send_at_most_once_witness :
    (sendToHostAction sampleClientState P2PMessage.REQUEST_RESET
        JoinOutcome.success).2.1 = some P2PMessage.REQUEST_RESET ∧
    (sendToHostAction sampleClientState P2PMessage.REQUEST_RESET
        JoinOutcome.otherFailure).2.1 = none ∧
    (sendToHostAction sampleClientState P2PMessage.REQUEST_RESET
        JoinOutcome.otherFailure).2.2 = 1 :=
  ⟨(send_at_most_once sampleClientState P2PMessage.REQUEST_RESET "H"
      JoinOutcome.success rfl rfl).2.1 rfl,
   (send_at_most_once sampleClientState P2PMessage.REQUEST_RESET "H"
      JoinOutcome.otherFailure rfl rfl).2.2 (by decide),
   (send_at_most_once sampleClientState P2PMessage.REQUEST_RESET "H"
      JoinOutcome.otherFailure rfl rfl).1⟩

/-- Connection object held by the registry of `src/services/p2pService.ts`:
`cid` models JavaScript object identity (the `includes`/`!==` checks of the
source), `peer` the remote endpoint identity, `isOpen` the source's `open`
flag. -/
structure DataConnection where
  cid : Nat
  peer : String
  isOpen : Bool
deriving DecidableEq, Repr

/-- Embeds `P2PService.setupConnection` (`src/services/p2pService.ts` lines
184-235) as its effect on `this.connections`: an already-tracked connection
object is left alone; otherwise, when the incoming connection's `peer` is
truthy (a nonempty string), the first stale entry with the same peer identity
is closed and spliced out, and finally the new connection is pushed. -/
def setupConnection (connections : List DataConnection) (conn : DataConnection) :
    List DataConnection :=
  if connections.contains conn then connections
  else
    (if conn.peer ≠ "" then
       match connections.findIdx? (fun c => c.peer == conn.peer) with
       | some existingIndex => connections.eraseIdx existingIndex
       | none => connections
     else connections) ++ [conn]

/-- Embeds the per-connection `close` handler installed by `setupConnection`
(`src/services/p2pService.ts` lines 223-229): a still-tracked connection is
filtered out of the list. -/
def connOnClose (connections : List DataConnection) (conn : DataConnection) :
    List DataConnection :=
  if connections.contains conn then connections.filter (fun c => c != conn)
  else connections

/-- Events that mutate the connection registry: a connection reaching
`setupConnection` (incoming or outgoing open) or a connection's `close`
event. -/
inductive RegEvent where
  | register (conn : DataConnection)
  | closed (conn : DataConnection)
deriving DecidableEq, Repr

def applyRegEvent (connections : List DataConnection) : RegEvent → List DataConnection
  | .register conn => setupConnection connections conn
  | .closed conn => connOnClose connections conn

/-- Registry contents after a sequence of events, starting from the empty
`connections` list of the constructor. -/
def runRegistry (events : List RegEvent) : List DataConnection :=
  events.foldl applyRegEvent []

/-- Real transport connections always carry a nonempty remote peer identity;
the truthiness guard in `setupConnection` is only defensive. -/
def RegEvent.validPeer : RegEvent → Bool
  | .register conn => conn.peer != ""
  | .closed _ => true

/-- The registry invariant: entries have pairwise distinct peer identities. -/
def NoDupPeers (l : List DataConnection) : Prop :=
  l.Pairwise fun a b => a.peer ≠ b.peer

theorem findIdx_eraseIdx_eq_eraseP (l : List DataConnection) (p : DataConnection → Bool) :
    (match l.findIdx? p with
     | some i => l.eraseIdx i
     | none => l) = l.eraseP p := by
  induction l with
  | nil => rfl
  | cons a l ih =>
    rw [List.findIdx?_cons]
    by_cases h : p a
    · simp [h, List.eraseP_cons_of_pos h]
    · rw [List.eraseP_cons_of_neg (by simpa using h), ← ih]
      simp only [h, Bool.false_eq_true, if_false, List.findIdx?_succ]
      cases hf : l.findIdx? p with
      | none => simp [hf]
      | some i => simp [hf, List.eraseIdx_cons_succ]

theorem noDupPeers_eraseP_append (l : List DataConnection) (conn : DataConnection)
    (hl : NoDupPeers l) :
    NoDupPeers (l.eraseP (fun c => c.peer == conn.peer) ++ [conn]) := by
  induction l with
  | nil => simp [NoDupPeers]
  | cons a l ih =>
    rcases List.pairwise_cons.mp hl with ⟨ha, hl'⟩
    by_cases h : a.peer == conn.peer
    · rw [List.eraseP_cons_of_pos (p := fun c : DataConnection => c.peer == conn.peer) h]
      rw [NoDupPeers, List.pairwise_append]
      refine ⟨hl', by simp, ?_⟩
      intro x hx y hy
      rw [List.mem_singleton] at hy
      rw [hy]
      have e : a.peer = conn.peer := by simpa using h
      rw [← e]
      exact fun ee => (ha x hx) ee.symm
    · rw [List.eraseP_cons_of_neg (by simpa using h), List.cons_append,
        NoDupPeers, List.pairwise_cons]
      constructor
      · intro b hb
        rcases List.mem_append.mp hb with hb | hb
        · exact ha b ((List.eraseP_sublist l).subset hb)
        · rw [List.mem_singleton] at hb
          subst hb
          simpa using h
      · exact ih hl'

theorem setupConnection_noDupPeers (l : List DataConnection) (conn : DataConnection)
    (hp : conn.peer ≠ "") (hl : NoDupPeers l) :
    NoDupPeers (setupConnection l conn) := by
  unfold setupConnection
  by_cases hc : l.contains conn
  · rw [if_pos hc]
    exact hl
  · rw [if_neg hc, if_pos hp, findIdx_eraseIdx_eq_eraseP]
    exact noDupPeers_eraseP_append l conn hl

theorem connOnClose_noDupPeers (l : List DataConnection) (conn : DataConnection)
    (hl : NoDupPeers l) : NoDupPeers (connOnClose l conn) := by
  unfold connOnClose
  by_cases hc : l.contains conn
  · rw [if_pos hc]
    exact List.Pairwise.filter _ hl
  · rwa [if_neg hc]

theorem foldl_regEvents_noDupPeers (events : List RegEvent) :
    ∀ l : List DataConnection, (∀ e ∈ events, e.validPeer = true) → NoDupPeers l →
      NoDupPeers (events.foldl applyRegEvent l) := by
  induction events with
  | nil => intro l _ hl; simpa using hl
  | cons e events ih =>
    intro l hv hl
    rw [List.foldl_cons]
    refine ih _ (fun x hx => hv x (by simp [hx])) ?_
    cases e with
    | register conn =>
      have hp : conn.peer ≠ "" := by
        have hvc := hv (RegEvent.register conn) (by simp)
        simpa [RegEvent.validPeer] using hvc
      exact setupConnection_noDupPeers _ _ hp hl
    | closed conn => exact connOnClose_noDupPeers _ _ hl

/-- C2: for every sequence of register/close events whose registered
connections carry a real (nonempty) peer identity, the Connection Registry
never holds two open connections with the same peer identity — indeed all
tracked entries have pairwise distinct peers, because registering a
connection for a peer that is already present first removes (after closing)
the existing entry before pushing the new one. -/
theorem registry_unique_open_peer (events : List RegEvent)
    (hv : ∀ e ∈ events, e.validPeer = true) :
    (runRegistry events).Pairwise
      (fun a b => a.isOpen = true → b.isOpen = true → a.peer ≠ b.peer) := by
  refine List.Pairwise.imp (fun h _ _ => h) ?_
  exact foldl_regEvents_noDupPeers events [] hv (by simp [NoDupPeers])

/-- Event sequence with two distinct open connection objects for the same
peer `A` (a stale one and its replacement) plus an unrelated peer `B`. -/
def sampleEvents : List RegEvent :=
  [RegEvent.register { cid := 1, peer := "A", isOpen := true },
   RegEvent.register { cid := 2, peer := "A", isOpen := true },
   RegEvent.register { cid := 3, peer := "B", isOpen := true }]

/-- C2 witness: the invariant at the concrete event sequence `sampleEvents`. -/
theorem registry_unique_open_peer_witness :
    (runRegistry sampleEvents).Pairwise
      (fun a b => a.isOpen = true → b.isOpen = true → a.peer ≠ b.peer) :=
  registry_unique_open_peer sampleEvents (by decide)

end SnapScore
